import Mathlib

/-!
Shallow embedding of the `Tab` event-sourced aggregate from `src/domain.rs`
of the `cafe` repository, and theorems about its decision and evolution
logic.

Modelling choices:
* The `Uuid` aggregate identifier is modelled as `Nat`; the source never
  inspects it inside `decide` or `evolve` (routing only).
* `u8` table numbers are modelled as `Nat` and `i32` menu numbers as `Int`;
  the source performs no arithmetic on either (menu numbers are only
  compared for equality), so no wrap-around modelling is needed.
* `price` and `served_items_value` are `f32` in the source (marked
  `TODO: use decimal`); they are modelled as exact rationals `Rat`.
  Properties that depend on floating-point rounding are outside the scope
  of this embedding.
* Rust's `Vec::iter().position(p)` followed by `Vec::remove(index)` on the
  first match is embedded as the single recursive function `removeFirst`,
  which returns the first matching element together with the list with
  exactly that occurrence removed.
-/

namespace Cafe

/-- Embeds `struct OrderedItem` from `src/domain.rs`. -/
structure OrderedItem where
  menu_number : Int
  description : String
  is_drink : Bool
  price : Rat
deriving DecidableEq

/-- Embeds `enum Command` from `src/domain.rs`; the first field of each
variant is the `Uuid` aggregate identifier. -/
inductive Command where
  | OpenTab (uuid : Nat) (table_number : Nat) (waiter : String)
  | PlaceOrder (uuid : Nat) (items : List OrderedItem)
  | MarkDrinksServed (uuid : Nat) (menu_numbers : List Int)
  | MarkFoodServed (uuid : Nat) (menu_numbers : List Int)
deriving DecidableEq

/-- Embeds `enum CommandError` from `src/domain.rs`. -/
inductive CommandError where
  | TabNotOpen
  | DrinksNotOutstanding
  | FoodNotOutstanding
deriving DecidableEq

/-- Embeds `enum Event` from `src/domain.rs`. -/
inductive Event where
  | TabOpened (table_number : Nat) (waiter : String)
  | DrinksOrdered (items : List OrderedItem)
  | FoodOrdered (items : List OrderedItem)
  | DrinksServed (menu_numbers : List Int)
  | FoodServed (menu_numbers : List Int)
deriving DecidableEq

/-- Embeds `struct State` from `src/domain.rs`. -/
structure State where
  tab_open : Bool
  outstanding_drinks : List OrderedItem
  outstanding_food : List OrderedItem
  served_items_value : Rat
deriving DecidableEq

/-- Embeds the pattern `iter().position(|x| x.menu_number == n)` followed by
`remove(index)` used in `are_drinks_outstanding`, `is_food_outstanding` and
`evolve`: returns the first element whose `menu_number` equals `n` together
with the list with exactly that element removed, or `none` if no element
matches. -/
def removeFirst (n : Int) : List OrderedItem → Option (OrderedItem × List OrderedItem)
  | [] => none
  | x :: xs =>
    if x.menu_number = n then
      some (x, xs)
    else
      match removeFirst n xs with
      | some (item, rest) => some (item, x :: rest)
      | none => none

/-- Embeds the shared loop of `State::are_drinks_outstanding` and
`State::is_food_outstanding` in `src/domain.rs`: walk the requested menu
numbers left to right, removing each match from a working copy of the
outstanding list; fail as soon as a number has no remaining match. -/
def checkOutstanding : List OrderedItem → List Int → Bool
  | _, [] => true
  | current, n :: ns =>
    match removeFirst n current with
    | some (_, rest) => checkOutstanding rest ns
    | none => false

/-- Embeds `State::are_drinks_outstanding` from `src/domain.rs`. -/
def State.are_drinks_outstanding (s : State) (menu_numbers : List Int) : Bool :=
  checkOutstanding s.outstanding_drinks menu_numbers

/-- Embeds `State::is_food_outstanding` from `src/domain.rs`. -/
def State.is_food_outstanding (s : State) (menu_numbers : List Int) : Bool :=
  checkOutstanding s.outstanding_food menu_numbers

/-- Embeds the serving loop of `Tab::evolve` for `DrinksServed` /
`FoodServed` in `src/domain.rs`: for each requested number in order, if a
first matching outstanding entry exists, add its price to the accumulated
value and remove exactly that entry; otherwise silently skip the number. -/
def serveLoop : List OrderedItem → Rat → List Int → List OrderedItem × Rat
  | outstanding, value, [] => (outstanding, value)
  | outstanding, value, n :: ns =>
    match removeFirst n outstanding with
    | some (item, rest) => serveLoop rest (value + item.price) ns
    | none => serveLoop outstanding value ns

/-- Embeds `Tab::initial_state` from `src/domain.rs`. -/
def Tab.initial_state : State :=
  { tab_open := false
    outstanding_drinks := []
    outstanding_food := []
    served_items_value := 0 }

/-- Embeds `Tab::decide` from `src/domain.rs`. Rust's
`partition(|n| n.is_drink)` yields the drink items first and the food items
second, each preserving input order. -/
def Tab.decide (state : State) (command : Command) : Except CommandError (List Event) :=
  match command with
  | Command.OpenTab _ table_number waiter =>
    Except.ok [Event.TabOpened table_number waiter]
  | Command.PlaceOrder _ items =>
    if state.tab_open then
      let parts := items.partition (fun n => n.is_drink)
      let drinks := parts.1
      let foods := parts.2
      Except.ok
        ((if foods.isEmpty then [] else [Event.FoodOrdered foods]) ++
         (if drinks.isEmpty then [] else [Event.DrinksOrdered drinks]))
    else
      Except.error CommandError.TabNotOpen
  | Command.MarkDrinksServed _ menu_numbers =>
    match state.are_drinks_outstanding menu_numbers with
    | true => Except.ok [Event.DrinksServed menu_numbers]
    | false => Except.error CommandError.DrinksNotOutstanding
  | Command.MarkFoodServed _ menu_numbers =>
    match state.is_food_outstanding menu_numbers with
    | true => Except.ok [Event.FoodServed menu_numbers]
    | false => Except.error CommandError.FoodNotOutstanding

/-- Embeds `Tab::evolve` from `src/domain.rs`, written as a pure function
returning the updated state. -/
def Tab.evolve (state : State) (event : Event) : State :=
  match event with
  | Event.TabOpened _ _ => { state with tab_open := true }
  | Event.DrinksOrdered items =>
    { state with outstanding_drinks := state.outstanding_drinks ++ items }
  | Event.FoodOrdered items =>
    { state with outstanding_food := state.outstanding_food ++ items }
  | Event.DrinksServed menu_numbers =>
    let r := serveLoop state.outstanding_drinks state.served_items_value menu_numbers
    { state with outstanding_drinks := r.1, served_items_value := r.2 }
  | Event.FoodServed menu_numbers =>
    let r := serveLoop state.outstanding_food state.served_items_value menu_numbers
    { state with outstanding_food := r.1, served_items_value := r.2 }

/-- Replaying a history: the left fold of `Tab.evolve` over an event
sequence, as performed by the (excluded) event-store caller. -/
def Tab.fold (events : List Event) (state : State) : State :=
  events.foldl Tab.evolve state

/-- Specification-side counting function: how many entries of an outstanding
list carry a given menu number.  Used to state the matching condition of the
serve commands independently of the scan-and-remove loop in the source. -/
def countMenu (v : Int) (l : List OrderedItem) : Nat :=
  (l.filter fun x => x.menu_number = v).length

theorem countMenu_cons (v : Int) (x : OrderedItem) (l : List OrderedItem) :
    countMenu v (x :: l) = countMenu v l + (if x.menu_number = v then 1 else 0) := by
  by_cases h : x.menu_number = v <;> simp [countMenu, List.filter_cons, h]

theorem removeFirst_none_of_forall (n : Int) :
    ∀ l : List OrderedItem, (∀ x ∈ l, x.menu_number ≠ n) → removeFirst n l = none := by
  intro l
  induction l with
  | nil => intro _; rfl
  | cons x xs ih =>
    intro h
    have hx : x.menu_number ≠ n := h x (List.mem_cons_self x xs)
    have hxs := ih fun y hy => h y (List.mem_cons_of_mem x hy)
    simp [removeFirst, hx, hxs]

theorem forall_of_removeFirst_none (n : Int) :
    ∀ l : List OrderedItem, removeFirst n l = none → ∀ x ∈ l, x.menu_number ≠ n := by
  intro l
  induction l with
  | nil => intro _ x hx; cases hx
  | cons x xs ih =>
    intro h y hy
    by_cases hx : x.menu_number = n
    · simp [removeFirst, hx] at h
    · rcases List.mem_cons.mp hy with rfl | hy₂
      · exact hx
      · cases hr : removeFirst n xs with
        | some p => obtain ⟨item, rest⟩ := p; simp [removeFirst, hx, hr] at h
        | none => exact ih hr y hy₂

theorem removeFirst_some_spec (n : Int) :
    ∀ (l : List OrderedItem) (item : OrderedItem) (rest : List OrderedItem),
      removeFirst n l = some (item, rest) →
      item.menu_number = n ∧ l.length = rest.length + 1 ∧
        countMenu n l = countMenu n rest + 1 ∧
        ∀ v, v ≠ n → countMenu v l = countMenu v rest := by
  intro l
  induction l with
  | nil => intro item rest h; cases h
  | cons x xs ih =>
    intro item rest h
    by_cases hx : x.menu_number = n
    · rw [removeFirst, if_pos hx, Option.some.injEq, Prod.mk.injEq] at h
      obtain ⟨h₁, h₂⟩ := h
      subst h₁; subst h₂
      refine ⟨hx, rfl, ?_, ?_⟩
      · simp [countMenu_cons, hx]
      · intro v hv
        have hxv : ¬ x.menu_number = v := by rw [hx]; exact fun hc => hv hc.symm
        simp [countMenu_cons, hxv]
    · rw [removeFirst, if_neg hx] at h
      cases hr : removeFirst n xs with
      | none => rw [hr] at h; cases h
      | some p =>
        obtain ⟨item₂, rest₂⟩ := p
        rw [hr, Option.some.injEq, Prod.mk.injEq] at h
        obtain ⟨h₁, h₂⟩ := h
        obtain ⟨him, hlen, hcn, hcv⟩ := ih item₂ rest₂ hr
        subst h₁; subst h₂
        refine ⟨him, by simp [hlen], ?_, ?_⟩
        · simp [countMenu_cons, hx, hcn]
        · intro v hv
          simp [countMenu_cons, hcv v hv]

theorem checkOutstanding_eq_true_iff (ns : List Int) :
    ∀ l : List OrderedItem,
      checkOutstanding l ns = true ↔ ∀ v ∈ ns, ns.count v ≤ countMenu v l := by
  induction ns with
  | nil => intro l; simp [checkOutstanding]
  | cons n ns ih =>
    intro l
    cases hr : removeFirst n l with
    | none =>
      have hall := forall_of_removeFirst_none n l hr
      have h0 : countMenu n l = 0 := by
        simp only [countMenu, List.length_eq_zero, List.filter_eq_nil_iff]
        intro x hx
        simpa using hall x hx
      constructor
      · intro hc; rw [checkOutstanding, hr] at hc; cases hc
      · intro hcm
        have h1 := hcm n (List.mem_cons_self n ns)
        rw [h0, List.count_cons_self] at h1
        omega
    | some p =>
      obtain ⟨item, rest⟩ := p
      obtain ⟨him, hlen, hcn, hcv⟩ := removeFirst_some_spec n l item rest hr
      have hred : checkOutstanding l (n :: ns) = checkOutstanding rest ns := by
        rw [checkOutstanding, hr]
      rw [hred, ih rest]
      constructor
      · intro h v hv
        by_cases hvn : v = n
        · subst hvn
          have hvrest : ns.count v ≤ countMenu v rest := by
            by_cases hmem : v ∈ ns
            · exact h v hmem
            · simp [List.count_eq_zero_of_not_mem hmem]
          rw [List.count_cons_self, hcn]
          omega
        · have hv₂ : v ∈ ns := by
            rcases List.mem_cons.mp hv with rfl | hv₂
            · exact absurd rfl hvn
            · exact hv₂
          have := h v hv₂
          rw [List.count_cons_of_ne hvn, hcv v hvn]
          exact this
      · intro h v hv
        by_cases hvn : v = n
        · subst hvn
          have := h v (List.mem_cons_self v ns)
          rw [List.count_cons_self, hcn] at this
          omega
        · have := h v (List.mem_cons_of_mem n hv)
          rw [List.count_cons_of_ne hvn, hcv v hvn] at this
          exact this

theorem are_drinks_outstanding_iff (s : State) (ns : List Int) :
    s.are_drinks_outstanding ns = true ↔
      ∀ v ∈ ns, ns.count v ≤ countMenu v s.outstanding_drinks :=
  checkOutstanding_eq_true_iff ns s.outstanding_drinks

theorem is_food_outstanding_iff (s : State) (ns : List Int) :
    s.is_food_outstanding ns = true ↔
      ∀ v ∈ ns, ns.count v ≤ countMenu v s.outstanding_food :=
  checkOutstanding_eq_true_iff ns s.outstanding_food

/-- C1: `decide` on `MarkDrinksServed ns` returns `Ok [DrinksServed ns]`
exactly when every element of `ns` can be matched one-for-one, without
reuse, against distinct entries of `outstanding_drinks` (by `menu_number`
value only), which is equivalent to: for every requested number, its
multiplicity in `ns` does not exceed the number of outstanding entries
carrying it; otherwise it returns `Err DrinksNotOutstanding` and no events.
Symmetrically for `MarkFoodServed` against `outstanding_food` with error
`FoodNotOutstanding`. -/
theorem decide_markServed_characterization (s : State) (u : Nat) (ns : List Int) :
    (Tab.decide s (Command.MarkDrinksServed u ns) = Except.ok [Event.DrinksServed ns]
      ↔ ∀ v ∈ ns, ns.count v ≤ countMenu v s.outstanding_drinks)
  ∧ (Tab.decide s (Command.MarkDrinksServed u ns)
        = Except.error CommandError.DrinksNotOutstanding
      ↔ ¬ ∀ v ∈ ns, ns.count v ≤ countMenu v s.outstanding_drinks)
  ∧ (Tab.decide s (Command.MarkFoodServed u ns) = Except.ok [Event.FoodServed ns]
      ↔ ∀ v ∈ ns, ns.count v ≤ countMenu v s.outstanding_food)
  ∧ (Tab.decide s (Command.MarkFoodServed u ns)
        = Except.error CommandError.FoodNotOutstanding
      ↔ ¬ ∀ v ∈ ns, ns.count v ≤ countMenu v s.outstanding_food) := by
  refine ⟨?_, ?_, ?_, ?_⟩
  · cases hc : s.are_drinks_outstanding ns with
    | true =>
      simp [Tab.decide, hc]
      exact (are_drinks_outstanding_iff s ns).mp hc
    | false =>
      have hnot : ¬ ∀ v ∈ ns, ns.count v ≤ countMenu v s.outstanding_drinks := by
        intro hcm
        rw [(are_drinks_outstanding_iff s ns).mpr hcm] at hc
        cases hc
      simp [Tab.decide, hc, hnot]
  · cases hc : s.are_drinks_outstanding ns with
    | true =>
      simp [Tab.decide, hc]
      exact (are_drinks_outstanding_iff s ns).mp hc
    | false =>
      have hnot : ¬ ∀ v ∈ ns, ns.count v ≤ countMenu v s.outstanding_drinks := by
        intro hcm
        rw [(are_drinks_outstanding_iff s ns).mpr hcm] at hc
        cases hc
      simp [Tab.decide, hc, hnot]
  · cases hc : s.is_food_outstanding ns with
    | true =>
      simp [Tab.decide, hc]
      exact (is_food_outstanding_iff s ns).mp hc
    | false =>
      have hnot : ¬ ∀ v ∈ ns, ns.count v ≤ countMenu v s.outstanding_food := by
        intro hcm
        rw [(is_food_outstanding_iff s ns).mpr hcm] at hc
        cases hc
      simp [Tab.decide, hc, hnot]
  · cases hc : s.is_food_outstanding ns with
    | true =>
      simp [Tab.decide, hc]
      exact (is_food_outstanding_iff s ns).mp hc
    | false =>
      have hnot : ¬ ∀ v ∈ ns, ns.count v ≤ countMenu v s.outstanding_food := by
        intro hcm
        rw [(is_food_outstanding_iff s ns).mpr hcm] at hc
        cases hc
      simp [Tab.decide, hc, hnot]

/-- Witness for C1 at a concrete input: one outstanding drink with menu
number 1 allows serving `[1]`. -/
theorem decide_markServed_characterization_witness :
    Tab.decide
        { tab_open := true
          outstanding_drinks := [{ menu_number := 1, description := "", is_drink := true, price := 2 }]
          outstanding_food := []
          served_items_value := 0 }
        (Command.MarkDrinksServed 0 [1])
      = Except.ok [Event.DrinksServed [1]] :=
  (decide_markServed_characterization
      { tab_open := true
        outstanding_drinks := [{ menu_number := 1, description := "", is_drink := true, price := 2 }]
        outstanding_food := []
        served_items_value := 0 } 0 [1]).1.mpr (by decide)

/-- C2: `decide` on `PlaceOrder` fails with `TabNotOpen` on a closed tab;
on an open tab it partitions the items by the `is_drink` flag preserving
relative order (stated via `List.filter`), emits the food batch first and
the drink batch second, each only when non-empty, and an empty order yields
zero events. -/
theorem decide_placeOrder_characterization (s : State) (u : Nat) (items : List OrderedItem) :
    (s.tab_open = false →
      Tab.decide s (Command.PlaceOrder u items) = Except.error CommandError.TabNotOpen)
  ∧ (s.tab_open = true →
      Tab.decide s (Command.PlaceOrder u items)
        = Except.ok
            ((if (items.filter fun x => !x.is_drink).isEmpty then []
              else [Event.FoodOrdered (items.filter fun x => !x.is_drink)]) ++
             (if (items.filter fun x => x.is_drink).isEmpty then []
              else [Event.DrinksOrdered (items.filter fun x => x.is_drink)])))
  ∧ (s.tab_open = true → items = [] →
      Tab.decide s (Command.PlaceOrder u items) = Except.ok []) := by
  refine ⟨?_, ?_, ?_⟩
  · intro h
    simp [Tab.decide, h]
  · intro h
    simp [Tab.decide, h, List.partition_eq_filter_filter, Function.comp_def]
  · intro h h₂
    subst h₂
    simp [Tab.decide, h, List.partition_eq_filter_filter]

/-- Witness for C2 at a concrete input: a food and a drink item on an open
tab produce a food event followed by a drink event, and ordering on a
closed tab fails. -/
theorem decide_placeOrder_characterization_witness :
    Tab.decide
        { tab_open := true, outstanding_drinks := [], outstanding_food := [],
          served_items_value := 0 }
        (Command.PlaceOrder 0
          [{ menu_number := 1, description := "", is_drink := false, price := 2 },
           { menu_number := 2, description := "", is_drink := true, price := 3 }])
      = Except.ok
          [Event.FoodOrdered [{ menu_number := 1, description := "", is_drink := false, price := 2 }],
           Event.DrinksOrdered [{ menu_number := 2, description := "", is_drink := true, price := 3 }]] := by
  have h :=
    (decide_placeOrder_characterization
        { tab_open := true, outstanding_drinks := [], outstanding_food := [],
          served_items_value := 0 } 0
        [{ menu_number := 1, description := "", is_drink := false, price := 2 },
         { menu_number := 2, description := "", is_drink := true, price := 3 }]).2.1 rfl
  simpa using h

theorem serveLoop_length_of_check (ns : List Int) :
    ∀ (l : List OrderedItem) (v : Rat),
      checkOutstanding l ns = true →
        (serveLoop l v ns).1.length + ns.length = l.length := by
  induction ns with
  | nil => intro l v _; simp [serveLoop]
  | cons n ns ih =>
    intro l v hc
    cases hr : removeFirst n l with
    | none => rw [checkOutstanding, hr] at hc; cases hc
    | some p =>
      obtain ⟨item, rest⟩ := p
      rw [checkOutstanding, hr] at hc
      have hlen := (removeFirst_some_spec n l item rest hr).2.1
      have hrec := ih rest (v + item.price) hc
      have hstep : serveLoop l v (n :: ns) = serveLoop rest (v + item.price) ns := by
        rw [serveLoop, hr]
      rw [hstep, List.length_cons]
      omega

theorem check_of_decide_ok_drinks {s : State} {u : Nat} {ns : List Int} {evs : List Event}
    (h : Tab.decide s (Command.MarkDrinksServed u ns) = Except.ok evs) :
    s.are_drinks_outstanding ns = true := by
  cases hc : s.are_drinks_outstanding ns with
  | true => rfl
  | false =>
    rw [Tab.decide, hc] at h
    cases h

theorem check_of_decide_ok_food {s : State} {u : Nat} {ns : List Int} {evs : List Event}
    (h : Tab.decide s (Command.MarkFoodServed u ns) = Except.ok evs) :
    s.is_food_outstanding ns = true := by
  cases hc : s.is_food_outstanding ns with
  | true => rfl
  | false =>
    rw [Tab.decide, hc] at h
    cases h

/-- C3: when `decide` accepts a serve command, `evolve` of the produced
event never takes the silent-skip branch: exactly one outstanding entry is
removed per requested menu number, `ns.length` entries in total. -/
theorem evolve_served_no_skip (s : State) (u : Nat) (ns : List Int) :
    (Tab.decide s (Command.MarkDrinksServed u ns) = Except.ok [Event.DrinksServed ns] →
      (Tab.evolve s (Event.DrinksServed ns)).outstanding_drinks.length + ns.length
        = s.outstanding_drinks.length)
  ∧ (Tab.decide s (Command.MarkFoodServed u ns) = Except.ok [Event.FoodServed ns] →
      (Tab.evolve s (Event.FoodServed ns)).outstanding_food.length + ns.length
        = s.outstanding_food.length) := by
  constructor
  · intro h
    have hc := check_of_decide_ok_drinks h
    have hl := serveLoop_length_of_check ns s.outstanding_drinks s.served_items_value hc
    simpa [Tab.evolve] using hl
  · intro h
    have hc := check_of_decide_ok_food h
    have hl := serveLoop_length_of_check ns s.outstanding_food s.served_items_value hc
    simpa [Tab.evolve] using hl

/-- Witness for C3 at a concrete input: serving the single outstanding
drink 1 removes exactly one entry. -/
theorem evolve_served_no_skip_witness :
    (Tab.evolve
        { tab_open := true
          outstanding_drinks := [{ menu_number := 1, description := "", is_drink := true, price := 2 }]
          outstanding_food := []
          served_items_value := 0 }
        (Event.DrinksServed [1])).outstanding_drinks.length + ([1] : List Int).length
      = [OrderedItem.mk 1 "" true 2].length :=
  (evolve_served_no_skip
      { tab_open := true
        outstanding_drinks := [{ menu_number := 1, description := "", is_drink := true, price := 2 }]
        outstanding_food := []
        served_items_value := 0 } 0 [1]).1 rfl

theorem removeFirst_split (n : Int) :
    ∀ (pre suf : List OrderedItem) (item : OrderedItem),
      (∀ x ∈ pre, x.menu_number ≠ n) → item.menu_number = n →
      removeFirst n (pre ++ item :: suf) = some (item, pre ++ suf) := by
  intro pre
  induction pre with
  | nil =>
    intro suf item _ hitem
    simp [removeFirst, hitem]
  | cons x xs ih =>
    intro suf item hpre hitem
    have hx : ¬ x.menu_number = n := hpre x (List.mem_cons_self x xs)
    have hxs := ih suf item (fun y hy => hpre y (List.mem_cons_of_mem x hy)) hitem
    simp [removeFirst, hx, hxs]

theorem serveLoop_cons (l : List OrderedItem) (v : Rat) (n : Int) (ns : List Int) :
    serveLoop l v (n :: ns)
      = serveLoop (serveLoop l v [n]).1 (serveLoop l v [n]).2 ns := by
  cases hr : removeFirst n l with
  | some p =>
    obtain ⟨item, rest⟩ := p
    simp [serveLoop, hr]
  | none => simp [serveLoop, hr]

/-- C4: `evolve` on a serve event processes the requested numbers in order
(the head is handled before the tail), and for a single number it removes
exactly the first matching outstanding entry and adds its price to
`served_items_value`, or changes nothing when no entry matches; `evolve`
is a total function, so it never fails.  Stated for `DrinksServed` against
`outstanding_drinks` and for `FoodServed` against `outstanding_food`. -/
theorem evolve_served_step_spec (s : State) (n : Int) (ns : List Int) :
    (Tab.evolve s (Event.DrinksServed (n :: ns))
      = Tab.evolve (Tab.evolve s (Event.DrinksServed [n])) (Event.DrinksServed ns))
  ∧ ((∀ x ∈ s.outstanding_drinks, x.menu_number ≠ n) →
      Tab.evolve s (Event.DrinksServed [n]) = s)
  ∧ (∀ pre item suf, s.outstanding_drinks = pre ++ item :: suf →
      (∀ x ∈ pre, x.menu_number ≠ n) → item.menu_number = n →
      Tab.evolve s (Event.DrinksServed [n])
        = { s with outstanding_drinks := pre ++ suf,
                   served_items_value := s.served_items_value + item.price })
  ∧ (Tab.evolve s (Event.FoodServed (n :: ns))
      = Tab.evolve (Tab.evolve s (Event.FoodServed [n])) (Event.FoodServed ns))
  ∧ ((∀ x ∈ s.outstanding_food, x.menu_number ≠ n) →
      Tab.evolve s (Event.FoodServed [n]) = s)
  ∧ (∀ pre item suf, s.outstanding_food = pre ++ item :: suf →
      (∀ x ∈ pre, x.menu_number ≠ n) → item.menu_number = n →
      Tab.evolve s (Event.FoodServed [n])
        = { s with outstanding_food := pre ++ suf,
                   served_items_value := s.served_items_value + item.price }) := by
  obtain ⟨t, d, f, vl⟩ := s
  refine ⟨?_, ?_, ?_, ?_, ?_, ?_⟩
  · show State.mk t (serveLoop d vl (n :: ns)).1 f (serveLoop d vl (n :: ns)).2
        = State.mk t (serveLoop (serveLoop d vl [n]).1 (serveLoop d vl [n]).2 ns).1 f
            (serveLoop (serveLoop d vl [n]).1 (serveLoop d vl [n]).2 ns).2
    rw [serveLoop_cons d vl n ns]
  · intro h
    have hr := removeFirst_none_of_forall n d h
    simp [Tab.evolve, serveLoop, hr]
  · intro pre item suf hsplit hpre hitem
    have hr : removeFirst n d = some (item, pre ++ suf) := by
      rw [show d = pre ++ item :: suf from hsplit]
      exact removeFirst_split n pre suf item hpre hitem
    have hs : serveLoop d vl [n] = (pre ++ suf, vl + item.price) := by
      simp only [serveLoop, hr]
    simp [Tab.evolve, hs]
  · show State.mk t d (serveLoop f vl (n :: ns)).1 (serveLoop f vl (n :: ns)).2
        = State.mk t d (serveLoop (serveLoop f vl [n]).1 (serveLoop f vl [n]).2 ns).1
            (serveLoop (serveLoop f vl [n]).1 (serveLoop f vl [n]).2 ns).2
    rw [serveLoop_cons f vl n ns]
  · intro h
    have hr := removeFirst_none_of_forall n f h
    simp [Tab.evolve, serveLoop, hr]
  · intro pre item suf hsplit hpre hitem
    have hr : removeFirst n f = some (item, pre ++ suf) := by
      rw [show f = pre ++ item :: suf from hsplit]
      exact removeFirst_split n pre suf item hpre hitem
    have hs : serveLoop f vl [n] = (pre ++ suf, vl + item.price) := by
      simp only [serveLoop, hr]
    simp [Tab.evolve, hs]

/-- Witness for C4 at a concrete input: serving number 1 against a single
matching outstanding drink removes it and adds its price. -/
theorem evolve_served_step_spec_witness :
    Tab.evolve
        { tab_open := true
          outstanding_drinks := [{ menu_number := 1, description := "", is_drink := true, price := 2 }]
          outstanding_food := []
          served_items_value := 0 }
        (Event.DrinksServed [1])
      = { tab_open := true, outstanding_drinks := [] ++ [], outstanding_food := [],
          served_items_value := 0 + 2 } :=
  (evolve_served_step_spec
      { tab_open := true
        outstanding_drinks := [{ menu_number := 1, description := "", is_drink := true, price := 2 }]
        outstanding_food := []
        served_items_value := 0 } 1 []).2.2.1
    [] { menu_number := 1, description := "", is_drink := true, price := 2 } []
    rfl (by simp) rfl

theorem evolve_preserves_tab_open (s : State) (e : Event) (h : s.tab_open = true) :
    (Tab.evolve s e).tab_open = true := by
  cases e <;> simp [Tab.evolve, h]

/-- C5: the initial state has `tab_open = false`, and once `tab_open` is
true no `evolve` step (hence no fold of further events) ever reverts it. -/
theorem tab_open_monotone :
    Tab.initial_state.tab_open = false
  ∧ (∀ (s : State) (e : Event), s.tab_open = true → (Tab.evolve s e).tab_open = true)
  ∧ (∀ (E : List Event) (s : State), s.tab_open = true → (Tab.fold E s).tab_open = true) := by
  refine ⟨rfl, fun s e h => evolve_preserves_tab_open s e h, ?_⟩
  intro E
  induction E with
  | nil => intro s h; exact h
  | cons e E ih =>
    intro s h
    exact ih (Tab.evolve s e) (evolve_preserves_tab_open s e h)

/-- Witness for C5 at a concrete input: an open tab stays open across an
`evolve` step and across a fold. -/
theorem tab_open_monotone_witness :
    (Tab.evolve
        { tab_open := true, outstanding_drinks := [], outstanding_food := [],
          served_items_value := 0 }
        (Event.FoodOrdered [])).tab_open = true :=
  tab_open_monotone.2.1
    { tab_open := true, outstanding_drinks := [], outstanding_food := [],
      served_items_value := 0 }
    (Event.FoodOrdered []) rfl

/-- C6 counterexample: folding the concatenation `E ++ E` is not the same
as folding `E` once; a single `DrinksOrdered` event applied twice leaves
two outstanding entries instead of one. -/
theorem fold_twice_ne_fold_once :
    Tab.fold
        ([Event.DrinksOrdered [{ menu_number := 1, description := "", is_drink := true, price := 0 }]]
          ++ [Event.DrinksOrdered [{ menu_number := 1, description := "", is_drink := true, price := 0 }]])
        Tab.initial_state
      ≠ Tab.fold
          [Event.DrinksOrdered [{ menu_number := 1, description := "", is_drink := true, price := 0 }]]
          Tab.initial_state := by
  decide

/-- C6 amended: folding `E ++ E` from the initial state equals folding `E`
once more starting from the state obtained by the first fold of `E`; the
fold is a pure function of the event sequence, with no hidden shared
state. -/
theorem fold_append_replay (E : List Event) :
    Tab.fold (E ++ E) Tab.initial_state = Tab.fold E (Tab.fold E Tab.initial_state) := by
  simp [Tab.fold, List.foldl_append]

/-- C8: `decide` on `OpenTab` always succeeds with exactly one `TabOpened`
event carrying the given table number and waiter, for every state. -/
theorem decide_openTab_always_ok (s : State) (u table_number : Nat) (waiter : String) :
    Tab.decide s (Command.OpenTab u table_number waiter)
      = Except.ok [Event.TabOpened table_number waiter] := rfl

/-- Replaces the `Uuid` aggregate identifier of a command, leaving the
payload untouched; used to state that `decide` never reads the identifier. -/
def Command.setUuid (u : Nat) : Command → Command
  | Command.OpenTab _ t w => Command.OpenTab u t w
  | Command.PlaceOrder _ items => Command.PlaceOrder u items
  | Command.MarkDrinksServed _ ns => Command.MarkDrinksServed u ns
  | Command.MarkFoodServed _ ns => Command.MarkFoodServed u ns

/-- C9: two `decide` calls on the same state with commands differing only in
their aggregate identifier return identical results. -/
theorem decide_ignores_uuid (s : State) (c : Command) (u₁ u₂ : Nat) :
    Tab.decide s (Command.setUuid u₁ c) = Tab.decide s (Command.setUuid u₂ c) := by
  cases c <;> rfl

/-- C10: serving an empty menu-number list always succeeds, even on a closed
tab, and returns one event carrying the empty list. -/
theorem decide_markServed_empty_ok (s : State) (u : Nat) :
    Tab.decide s (Command.MarkDrinksServed u []) = Except.ok [Event.DrinksServed []]
  ∧ Tab.decide s (Command.MarkFoodServed u []) = Except.ok [Event.FoodServed []] := by
  constructor <;> simp [Tab.decide, State.are_drinks_outstanding,
    State.is_food_outstanding, checkOutstanding]

end Cafe
